import Mathlib

/-!
Verification of the Weekly Mood Statistics and Insight Scoring routine of
the MoodSync application. The definitions below are a shallow embedding of
the pure computation in src/app/components/insights/MoodInsights.tsx
together with the data shapes declared in src/amplify/data/resource.ts and
src/app/components/mood/MoodSelector.tsx. JavaScript numbers are modelled
as exact integers and rationals; a JavaScript object used as a counter map
is modelled as an association list in key insertion order.
-/

namespace MoodSync

/-- The five mood types, in the declaration order of MOOD_TYPES in
src/app/components/mood/MoodSelector.tsx (also the enum order of the
moodType field in src/amplify/data/resource.ts). -/
inductive MoodType : Type
  | HAPPY
  | SAD
  | ENERGETIC
  | CALM
  | ANXIOUS
deriving DecidableEq, Repr

/-- A mood entry as read by the insights component: the moodType enum
field, the integer intensity, and the date string. Only the fields the
weekly aggregation touches are modelled. -/
structure MoodEntry where
  moodType : MoodType
  intensity : ℤ
  date : String
deriving DecidableEq, Repr

/-- The weeklyStats record assembled in generateWeeklyStats
(src/app/components/insights/MoodInsights.tsx, lines 111 to 116). The
moodDistribution is an association list in key insertion order, mirroring
a JavaScript object built by repeated indexed assignment. -/
structure WeeklyStats where
  totalMoods : ℕ
  averageIntensity : ℚ
  moodDistribution : List (MoodType × ℕ)
  moodStreak : ℕ
deriving DecidableEq, Repr

/-- JavaScript Math.round on an exact rational: round to the nearest
integer, halves toward positive infinity. -/
def jsRound (q : ℚ) : ℤ := ⌊q + 1 / 2⌋

/-- The Insight Store rows relevant to the uniqueness claims: a persisted
MoodInsight carries the composite identifier declared in
src/amplify/data/resource.ts, identifier ["userId", "weekStartDate"],
with the week end and the computed score; the free-text fields do not
affect the key semantics and are not modelled. -/
structure InsightRecord where
  userId : String
  weekStartDate : ℤ
  weekEndDate : ℤ
  dominantMood : MoodType
  weeklyScore : ℤ
deriving DecidableEq, Repr

/-- The persisted collection of MoodInsight rows. -/
abbrev InsightStore := List InsightRecord

/-- Whether some stored row already carries the identifier
(userId, weekStartDate) of the given record. -/
def hasKey (s : InsightStore) (r : InsightRecord) : Bool :=
  s.any fun x => x.userId == r.userId && x.weekStartDate == r.weekStartDate

/-- The duplicate-identifier failure of the Insight Store. -/
inductive CreateError : Type
  | duplicateKey
deriving DecidableEq, Repr

/-- Modelled from the spec: createInsight of the Insight Store
collaborator, which must reject a create whose (userId, weekStartDate)
identifier already exists and otherwise persists the row. The identifier
itself is declared in src/amplify/data/resource.ts; the store
implementation is the managed backend and is not part of src/. -/
def createInsight (s : InsightStore) (r : InsightRecord) :
    Except CreateError InsightStore :=
  if hasKey s r then .error .duplicateKey else .ok (s ++ [r])

/-- The store after a create attempt: the new store on success, the old
store unchanged on failure. -/
def applyCreate (s : InsightStore) (r : InsightRecord) : InsightStore :=
  match createInsight s r with
  | .ok next => next
  | .error _ => s

/-- Stores reachable from the empty store by create attempts. -/
inductive Reachable : InsightStore → Prop
  | empty : Reachable []
  | create (s : InsightStore) (r : InsightRecord) :
      Reachable s → Reachable (applyCreate s r)

/-- No two rows of the store share a (userId, weekStartDate) identifier. -/
def DistinctKeys (s : InsightStore) : Prop :=
  s.Pairwise fun a b => ¬(a.userId = b.userId ∧ a.weekStartDate = b.weekStartDate)

/-- How many stored rows carry the identifier of the given record. -/
def countKey (s : InsightStore) (r : InsightRecord) : ℕ :=
  s.countP fun x => x.userId == r.userId && x.weekStartDate == r.weekStartDate

/-- Math.round(q * 10) / 10 as written on line 113: rounding to one
decimal place. -/
def roundTo1 (q : ℚ) : ℚ := (jsRound (q * 10) : ℚ) / 10

/-- One step of the moodDistribution reduce on line 104: on a JavaScript
object, acc[mood.moodType] = (acc[mood.moodType] || 0) + 1 increments an
existing key in place or appends the new key at the end. -/
def incr : List (MoodType × ℕ) → MoodType → List (MoodType × ℕ)
  | [], m => [(m, 1)]
  | (k, c) :: t, m => if k = m then (k, c + 1) :: t else (k, c) :: incr t m

/-- calculateMoodStreak (lines 131 to 135): the size of a JavaScript Set
built from the date strings of the moods, that is the number of distinct
date strings. -/
def calculateMoodStreak (moods : List MoodEntry) : ℕ :=
  ((moods.map fun mood => mood.date).dedup).length

/-- The pure aggregation core of generateWeeklyStats (lines 95 to 116),
applied to the list of moods returned for the week: the entry count, the
average intensity rounded to one decimal (0 when there are no moods), the
mood distribution counter, and the unique day count. -/
def generateWeeklyStats (moods : List MoodEntry) : WeeklyStats :=
  let totalMoods := moods.length
  let averageIntensity : ℚ :=
    if 0 < totalMoods then
      ((moods.foldl (fun sum mood => sum + mood.intensity) 0 : ℤ) : ℚ) / (totalMoods : ℚ)
    else 0
  let moodDistribution := moods.foldl (fun acc mood => incr acc mood.moodType) []
  { totalMoods := totalMoods
    averageIntensity := roundTo1 averageIntensity
    moodDistribution := moodDistribution
    moodStreak := calculateMoodStreak moods }

/-- The dominant-mood selection inside generateAIInsight (lines 137 to
153): the guard on line 138 returns without a result when totalMoods is
zero; otherwise Object.entries of the distribution is reduced with
(a, b) => a[1] > b[1] ? a : b and the surviving key is the dominant mood.
On an empty entries array the JavaScript reduce has no result (it
throws); none models the absence of a result in both cases. -/
def classifyDominantMood (stats : WeeklyStats) : Option MoodType :=
  if stats.totalMoods = 0 then none
  else
    match stats.moodDistribution with
    | [] => none
    | e :: es => some (es.foldl (fun a b => if a.2 > b.2 then a else b) e).1

/-- calculateWeeklyScore (lines 242 to 262): base 5, an intensity
adjustment chain, two independent diversity checks, a consistency chain,
then Math.max(1, Math.min(10, score)). -/
def calculateWeeklyScore (stats : WeeklyStats) : ℤ :=
  let score : ℤ := 5
  let score := score +
    (if stats.averageIntensity ≥ 7 then 2
     else if stats.averageIntensity ≥ 5 then 1
     else if stats.averageIntensity ≤ 3 then -2 else 0)
  let moodDiversity := stats.moodDistribution.length
  let score := score + (if moodDiversity ≥ 4 then 1 else 0)
  let score := score + (if moodDiversity ≤ 2 then -1 else 0)
  let score := score +
    (if stats.moodStreak ≥ 6 then 1
     else if stats.moodStreak ≤ 2 then -1 else 0)
  max 1 (min 10 score)

/-- The calming recommendation sentence pushed on line 216. -/
def anxiousRec : String :=
  "Consider practicing deep breathing exercises or meditation to help manage anxiety levels."

/-- The social-support recommendation sentence pushed on line 218. -/
def sadRec : String :=
  "Try engaging in activities that bring you joy, or reach out to friends and family for support."

/-- The positivity-sharing recommendation sentence pushed on line 220. -/
def happyRec : String :=
  "Great job maintaining positive energy! Consider sharing your happiness with others."

/-- The channel-energy recommendation sentence pushed on line 222. -/
def energeticRec : String :=
  "Channel your energy into productive activities or creative pursuits."

/-- The reflection recommendation sentence pushed on line 224. -/
def calmRec : String :=
  "Your calm state is wonderful for reflection and planning. Use this time for goal setting."

/-- The consistency reminder pushed on line 228 when moodStreak < 3. -/
def consistencyRec : String :=
  "Try to track your mood daily for better insights into your emotional patterns."

/-- The generic encouragement returned on line 231 when the joined
recommendation array is the empty string. -/
def genericRec : String :=
  "Keep up the great work with mood tracking! Consistency helps build emotional awareness."

/-- generateMockRecommendations (lines 210 to 232): the if/else chain
pushes at most one mood-specific sentence, the consistency reminder is
pushed when moodStreak < 3, the array is joined with single spaces, and
the JavaScript || operator replaces an empty join with the generic
sentence. -/
def generateMockRecommendations (stats : WeeklyStats) (dominantMood : MoodType) : String :=
  let recommendations : List String :=
    if dominantMood = MoodType.ANXIOUS ∧ stats.averageIntensity > 6 then [anxiousRec]
    else if dominantMood = MoodType.SAD ∧ stats.averageIntensity > 5 then [sadRec]
    else if dominantMood = MoodType.HAPPY ∧ stats.averageIntensity > 7 then [happyRec]
    else if dominantMood = MoodType.ENERGETIC then [energeticRec]
    else if dominantMood = MoodType.CALM then [calmRec]
    else []
  let recommendations :=
    recommendations ++ (if stats.moodStreak < 3 then [consistencyRec] else [])
  let joined := String.intercalate " " recommendations
  if joined = "" then genericRec else joined

/-- A calendar date as an integer day index; dayOfWeek is its JavaScript
getDay value, 0 standing for Sunday through 6 for Saturday (day index 0
is taken to be a Sunday). -/
def dayOfWeek (d : ℤ) : ℤ := d % 7

/-- getCurrentWeekStart (lines 123 to 129) on the day-index model:
monday.setDate(now.getDate() - now.getDay() + 1); the setHours
normalisation does not move the calendar day. -/
def getCurrentWeekStart (now : ℤ) : ℤ := now - dayOfWeek now + 1

/-- The week end computed in generateAIInsight (lines 147 to 148):
weekEnd.setDate(weekEnd.getDate() + 6) starting from the week start. -/
def weekEndDate (now : ℤ) : ℤ := getCurrentWeekStart now + 6

/-- The Monday of the ISO week containing a day: six days back on a
Sunday, otherwise back to the most recent Monday. -/
def isoWeekMonday (d : ℤ) : ℤ :=
  if dayOfWeek d = 0 then d - 6 else d - dayOfWeek d + 1

/-- The generateAIInsight pipeline (lines 137 to 189), restricted to the
behaviour the claims observe: the guard on line 138 returns before any
text generation or store write when there are no stats or no moods this
week; otherwise the dominant mood is selected (were the distribution
empty the JavaScript reduce would have no result, and nothing would be
persisted either), the insight row is assembled, and the create is
attempted; the result pairs the store after the attempt with the row
passed to the create, none when the guard or the selection bailed out. -/
def generateAIInsight (weeklyStats : Option WeeklyStats) (currentUserId : String)
    (now : ℤ) (store : InsightStore) : InsightStore × Option InsightRecord :=
  match weeklyStats with
  | none => (store, none)
  | some stats =>
    if stats.totalMoods = 0 then (store, none)
    else
      match classifyDominantMood stats with
      | none => (store, none)
      | some dominantMood =>
        let newInsight : InsightRecord :=
          { userId := currentUserId
            weekStartDate := getCurrentWeekStart now
            weekEndDate := weekEndDate now
            dominantMood := dominantMood
            weeklyScore := calculateWeeklyScore stats }
        (applyCreate store newInsight, some newInsight)

/-- The largest count appearing in a distribution. -/
def maxCount (l : List (MoodType × ℕ)) : ℕ :=
  l.foldr (fun e m => max e.2 m) 0

/-- The last entry of the distribution attaining the maximal count, in
the entry order of the distribution. -/
def lastOfMax (l : List (MoodType × ℕ)) : Option (MoodType × ℕ) :=
  (l.filter fun e => e.2 = maxCount l).getLast?

/-- The weekly-score rule exactly as the specification words it: base 5;
the intensity branches checked in order; a diversity adjustment of plus
one at four or more distinct mood types and minus one at two or fewer; a
consistency adjustment; then one clamp to the interval from 1 to 10. -/
def specWeeklyScore (stats : WeeklyStats) : ℤ :=
  let intensityAdj : ℤ :=
    if stats.averageIntensity ≥ 7 then 2
    else if stats.averageIntensity ≥ 5 then 1
    else if stats.averageIntensity ≤ 3 then -2 else 0
  let diversityAdj : ℤ :=
    if stats.moodDistribution.length ≥ 4 then 1
    else if stats.moodDistribution.length ≤ 2 then -1 else 0
  let consistencyAdj : ℤ :=
    if stats.moodStreak ≥ 6 then 1
    else if stats.moodStreak ≤ 2 then -1 else 0
  max 1 (min 10 (5 + intensityAdj + diversityAdj + consistencyAdj))

/-- The mood-specific advice rule table as the specification words it. -/
def specMoodRule (stats : WeeklyStats) (dominantMood : MoodType) : Option String :=
  if dominantMood = MoodType.ANXIOUS ∧ stats.averageIntensity > 6 then some anxiousRec
  else if dominantMood = MoodType.SAD ∧ stats.averageIntensity > 5 then some sadRec
  else if dominantMood = MoodType.HAPPY ∧ stats.averageIntensity > 7 then some happyRec
  else if dominantMood = MoodType.ENERGETIC then some energeticRec
  else if dominantMood = MoodType.CALM then some calmRec
  else none

/-- The recommendation text as the specification words it: the optional
mood-specific sentence, followed by the consistency reminder exactly when
the unique day count is below 3, sentences joined by single spaces; the
fixed generic encouragement exactly when no rule matched and the unique
day count is at least 3. -/
def specRecommendationText (stats : WeeklyStats) (dominantMood : MoodType) : String :=
  match specMoodRule stats dominantMood with
  | some s => if stats.moodStreak < 3 then s ++ " " ++ consistencyRec else s
  | none => if stats.moodStreak < 3 then consistencyRec else genericRec

end MoodSync
namespace MoodSync

/-- C6: for every WeeklyStats, including the stats of an empty week, the
weekly score is an integer between 1 and 10; the final clamp bounds the
result regardless of the intermediate adjustments. -/
theorem weeklyScore_bounded (stats : WeeklyStats) :
    1 ≤ calculateWeeklyScore stats ∧ calculateWeeklyScore stats ≤ 10 ∧
      calculateWeeklyScore (generateWeeklyStats []) = 1 := by
  refine ⟨le_max_left _ _, max_le (by norm_num) (min_le_left _ _), ?_⟩
  simp only [calculateWeeklyScore, generateWeeklyStats, calculateMoodStreak, roundTo1, jsRound]
  norm_num

/-- C5: the weekly score equals the specification formula: base 5, the
intensity branch chain, the diversity and consistency adjustments, one
clamp to the interval from 1 to 10; and the scenario with average
intensity 7.5, four distinct mood types and unique day count 7 scores 9. -/
theorem weeklyScore_spec (stats : WeeklyStats) :
    calculateWeeklyScore stats = specWeeklyScore stats ∧
      calculateWeeklyScore
        { totalMoods := 7
          averageIntensity := 15 / 2
          moodDistribution :=
            [(MoodType.HAPPY, 2), (MoodType.SAD, 1), (MoodType.ENERGETIC, 3), (MoodType.CALM, 1)]
          moodStreak := 7 } = 9 := by
  constructor
  · simp only [calculateWeeklyScore, specWeeklyScore]
    by_cases h4 : stats.moodDistribution.length ≥ 4 <;>
      by_cases h2 : stats.moodDistribution.length ≤ 2 <;>
        simp [h4, h2] <;> ring_nf <;> omega
  · simp only [calculateWeeklyScore]
    norm_num


/-- C4 counterexample: day index 0 is a Sunday, and there
getCurrentWeekStart returns the next day (day 1), not day minus 6, the
Monday of the ISO week containing that Sunday. -/
theorem weekStart_sunday_counterexample :
    dayOfWeek 0 = 0 ∧ getCurrentWeekStart 0 = 1 ∧ isoWeekMonday 0 = -6 ∧
      getCurrentWeekStart 0 ≠ isoWeekMonday 0 := by
  refine ⟨rfl, rfl, rfl, ?_⟩
  decide

/-- C4 amended: the computed week start is always a Monday and the week
end is always the week start plus 6 days; for Monday through Saturday
invocation dates it is the Monday of the ISO week of the date, but on a
Sunday it is the Monday of the following ISO week (seven days after the
ISO Monday of the week containing the Sunday). -/
theorem weekStart_amended (now : ℤ) :
    getCurrentWeekStart now =
        (if dayOfWeek now = 0 then isoWeekMonday now + 7 else isoWeekMonday now) ∧
      dayOfWeek (getCurrentWeekStart now) = 1 ∧
      weekEndDate now = getCurrentWeekStart now + 6 := by
  refine ⟨?_, ?_, rfl⟩
  · by_cases h : dayOfWeek now = 0 <;>
      simp only [getCurrentWeekStart, isoWeekMonday, h, if_true, if_false, reduceIte] <;>
      omega
  · simp only [dayOfWeek, getCurrentWeekStart]
    omega


theorem maxCount_cons (x : MoodType × ℕ) (l : List (MoodType × ℕ)) :
    maxCount (x :: l) = max x.2 (maxCount l) := rfl

theorem lastOfMax_cons_cons (e b : MoodType × ℕ) (t : List (MoodType × ℕ)) :
    lastOfMax (e :: b :: t) = lastOfMax ((if e.2 > b.2 then e else b) :: t) := by
  by_cases h : e.2 > b.2
  · rw [if_pos h]
    have hm : maxCount (e :: b :: t) = maxCount (e :: t) := by
      simp only [maxCount_cons]; omega
    have hb : ¬(b.2 = maxCount (e :: t)) := by
      have := le_max_left e.2 (maxCount t)
      rw [maxCount_cons]; omega
    unfold lastOfMax
    rw [hm]
    have hf : ((e :: b :: t).filter fun x => decide (x.2 = maxCount (e :: t))) =
        ((e :: t).filter fun x => decide (x.2 = maxCount (e :: t))) := by
      simp [List.filter_cons, hb]
    rw [hf]
  · rw [if_neg h]
    have hm : maxCount (e :: b :: t) = maxCount (b :: t) := by
      simp only [maxCount_cons]; omega
    unfold lastOfMax
    rw [hm]
    by_cases he : e.2 = maxCount (b :: t)
    · have hb : b.2 = maxCount (b :: t) := by
        have := le_max_left b.2 (maxCount t)
        rw [maxCount_cons] at he ⊢; omega
      have hf : ((e :: b :: t).filter fun x => decide (x.2 = maxCount (b :: t))) =
          e :: b :: (t.filter fun x => decide (x.2 = maxCount (b :: t))) := by
        simp [List.filter_cons, he, hb]
      have hg : ((b :: t).filter fun x => decide (x.2 = maxCount (b :: t))) =
          b :: (t.filter fun x => decide (x.2 = maxCount (b :: t))) := by
        simp [List.filter_cons, hb]
      rw [hf, hg, List.getLast?_cons_cons]
    · have hf : ((e :: b :: t).filter fun x => decide (x.2 = maxCount (b :: t))) =
          ((b :: t).filter fun x => decide (x.2 = maxCount (b :: t))) := by
        simp [List.filter_cons, he]
      rw [hf]

theorem foldl_keepLater_eq_lastOfMax (es : List (MoodType × ℕ)) :
    ∀ e : MoodType × ℕ,
      some (es.foldl (fun a b => if a.2 > b.2 then a else b) e) = lastOfMax (e :: es) := by
  induction es with
  | nil =>
    intro e
    simp [lastOfMax, maxCount]
  | cons b t ih =>
    intro e
    rw [List.foldl_cons, ih (if e.2 > b.2 then e else b)]
    exact (lastOfMax_cons_cons e b t).symm


/-- A concrete week with a HAPPY and CALM tie, HAPPY occurring first: two
HAPPY and two CALM entries. -/
def tieWeekEntries : List MoodEntry :=
  [{ moodType := MoodType.HAPPY, intensity := 5, date := "2025-01-06" },
   { moodType := MoodType.CALM, intensity := 5, date := "2025-01-07" },
   { moodType := MoodType.HAPPY, intensity := 5, date := "2025-01-08" },
   { moodType := MoodType.CALM, intensity := 5, date := "2025-01-09" }]

/-- C1 counterexample: on the concrete week with HAPPY and CALM tied at
count 2 and HAPPY first in the distribution, the dominant-mood selection
returns CALM, not HAPPY as the claim states. -/
theorem dominantMood_tie_counterexample :
    (generateWeeklyStats tieWeekEntries).moodDistribution =
        [(MoodType.HAPPY, 2), (MoodType.CALM, 2)] ∧
      classifyDominantMood (generateWeeklyStats tieWeekEntries) = some MoodType.CALM ∧
      classifyDominantMood (generateWeeklyStats tieWeekEntries) ≠ some MoodType.HAPPY := by
  refine ⟨rfl, rfl, ?_⟩
  decide

/-- C1 amended: when any moods were recorded, the dominant-mood selection
returns the mood of the distribution entry that attains the maximal count
and comes last in the entry order of the distribution (the order mood
types first occur among the week's entries); ties are thus broken toward
the latest tied mood in that order, not by the declaration order of the
mood types. With no recorded moods there is no dominant mood. -/
theorem dominantMood_amended (stats : WeeklyStats) :
    classifyDominantMood stats =
      if stats.totalMoods = 0 then none
      else (lastOfMax stats.moodDistribution).map Prod.fst := by
  unfold classifyDominantMood
  by_cases h : stats.totalMoods = 0
  · simp [h]
  · rw [if_neg h, if_neg h]
    match hd : stats.moodDistribution with
    | [] => rfl
    | e :: es => rw [← foldl_keepLater_eq_lastOfMax es e]; rfl


/-- The count stored in a distribution for a mood type, 0 when the mood
type has no key (JavaScript acc[moodType] || 0). -/
def lookupCount : List (MoodType × ℕ) → MoodType → ℕ
  | [], _ => 0
  | (k, c) :: t, m => if k = m then c else lookupCount t m

/-- The distribution reduce of line 103 started from an arbitrary
accumulator. -/
def distAux (moods : List MoodEntry) (acc : List (MoodType × ℕ)) : List (MoodType × ℕ) :=
  moods.foldl (fun a mood => incr a mood.moodType) acc

theorem incr_sum (acc : List (MoodType × ℕ)) (m : MoodType) :
    ((incr acc m).map Prod.snd).sum = ((acc.map Prod.snd).sum) + 1 := by
  induction acc with
  | nil => simp [incr]
  | cons p t ih =>
    obtain ⟨k, c⟩ := p
    by_cases h : k = m <;> simp [incr, h, ih] <;> omega

theorem incr_pos (acc : List (MoodType × ℕ)) (m : MoodType)
    (h : ∀ p ∈ acc, 1 ≤ p.2) : ∀ p ∈ incr acc m, 1 ≤ p.2 := by
  induction acc with
  | nil => simp [incr]
  | cons q t ih =>
    obtain ⟨k, c⟩ := q
    intro p hp
    by_cases hk : k = m
    · rw [incr, if_pos hk, List.mem_cons] at hp
      rcases hp with rfl | hp
      · simp
      · exact h p (List.mem_cons_of_mem _ hp)
    · rw [incr, if_neg hk, List.mem_cons] at hp
      rcases hp with rfl | hp
      · exact h _ (List.mem_cons_self _ _)
      · exact ih (fun q hq => h q (List.mem_cons_of_mem _ hq)) p hp

theorem incr_keys (acc : List (MoodType × ℕ)) (m : MoodType) :
    (incr acc m).map Prod.fst =
      if m ∈ acc.map Prod.fst then acc.map Prod.fst else acc.map Prod.fst ++ [m] := by
  induction acc with
  | nil => simp [incr]
  | cons q t ih =>
    obtain ⟨k, c⟩ := q
    by_cases hk : k = m
    · simp [incr, hk]
    · simp only [incr, if_neg hk, List.map_cons, ih]
      by_cases hm : m ∈ t.map Prod.fst <;>
        simp [hm, Ne.symm hk]

theorem incr_lookup (acc : List (MoodType × ℕ)) (m m' : MoodType) :
    lookupCount (incr acc m) m' = lookupCount acc m' + if m' = m then 1 else 0 := by
  induction acc with
  | nil =>
    simp only [incr, lookupCount]
    split_ifs <;> simp_all
  | cons q t ih =>
    obtain ⟨k, c⟩ := q
    simp only [incr]
    split_ifs with hk <;> simp only [lookupCount] <;> split_ifs <;> simp_all


theorem distAux_sum (moods : List MoodEntry) :
    ∀ acc : List (MoodType × ℕ),
      (((distAux moods acc).map Prod.snd).sum) = ((acc.map Prod.snd).sum) + moods.length := by
  induction moods with
  | nil => intro acc; simp [distAux]
  | cons e es ih =>
    intro acc
    rw [distAux, List.foldl_cons, ← distAux, ih (incr acc e.moodType), incr_sum]
    simp; omega

theorem distAux_pos (moods : List MoodEntry) :
    ∀ acc : List (MoodType × ℕ), (∀ p ∈ acc, 1 ≤ p.2) →
      ∀ p ∈ distAux moods acc, 1 ≤ p.2 := by
  induction moods with
  | nil => intro acc h; simpa [distAux] using h
  | cons e es ih =>
    intro acc h
    rw [distAux, List.foldl_cons, ← distAux]
    exact ih (incr acc e.moodType) (incr_pos acc e.moodType h)

theorem distAux_keys_nodup (moods : List MoodEntry) :
    ∀ acc : List (MoodType × ℕ), (acc.map Prod.fst).Nodup →
      ((distAux moods acc).map Prod.fst).Nodup := by
  induction moods with
  | nil => intro acc h; simpa [distAux] using h
  | cons e es ih =>
    intro acc h
    rw [distAux, List.foldl_cons, ← distAux]
    refine ih (incr acc e.moodType) ?_
    rw [incr_keys]
    by_cases hm : e.moodType ∈ acc.map Prod.fst
    · simpa [hm] using h
    · rw [if_neg hm]
      simpa [List.nodup_append, hm] using h

theorem distAux_lookup (moods : List MoodEntry) :
    ∀ (acc : List (MoodType × ℕ)) (m : MoodType),
      lookupCount (distAux moods acc) m =
        lookupCount acc m + moods.countP (fun e => e.moodType == m) := by
  induction moods with
  | nil => intro acc m; simp [distAux]
  | cons e es ih =>
    intro acc m
    rw [distAux, List.foldl_cons, ← distAux, ih (incr acc e.moodType) m, incr_lookup]
    rw [List.countP_cons]
    by_cases h : e.moodType = m <;> simp [h, Ne.symm] <;> omega

/-- C10: the distribution counts each aggregated entry exactly once: its
counts sum to the number of entries, for every mood type the stored count
is the number of entries with that mood type, every stored count is at
least 1 (no zero-count keys), and no key repeats. Keys are values of the
MoodType enum by the typing of the embedding, which mirrors the moodType
schema enum of src/amplify/data/resource.ts. -/
theorem moodDistribution_counts (moods : List MoodEntry) :
    (((generateWeeklyStats moods).moodDistribution.map Prod.snd).sum) = moods.length ∧
      (∀ m : MoodType,
        lookupCount (generateWeeklyStats moods).moodDistribution m =
          moods.countP (fun e => e.moodType == m)) ∧
      (∀ p ∈ (generateWeeklyStats moods).moodDistribution, 1 ≤ p.2) ∧
      ((generateWeeklyStats moods).moodDistribution.map Prod.fst).Nodup := by
  have hdist : (generateWeeklyStats moods).moodDistribution = distAux moods [] := rfl
  rw [hdist]
  refine ⟨?_, ?_, ?_, ?_⟩
  · rw [distAux_sum moods []]; simp
  · intro m; rw [distAux_lookup moods [] m]; simp [lookupCount]
  · exact distAux_pos moods [] (by simp)
  · exact distAux_keys_nodup moods [] (by simp)


theorem foldl_intensity_sum (moods : List MoodEntry) :
    ∀ a : ℤ, moods.foldl (fun sum mood => sum + mood.intensity) a =
      a + ((moods.map fun mood => mood.intensity).sum) := by
  induction moods with
  | nil => intro a; simp
  | cons e es ih =>
    intro a
    rw [List.foldl_cons, ih]
    simp [add_assoc]

/-- An entry with an out-of-range intensity and a malformed date string. -/
def malformedEntry : MoodEntry :=
  { moodType := MoodType.HAPPY, intensity := 999, date := "not-a-date" }

/-- C2 counterexample: an entry with intensity 999 and a malformed date
is aggregated rather than excluded: it is counted in totalEntries, sets
the average intensity to 999, and appears in the distribution and the
unique day count. -/
theorem malformed_entry_included_counterexample :
    (generateWeeklyStats [malformedEntry]).totalMoods = 1 ∧
      (generateWeeklyStats [malformedEntry]).averageIntensity = 999 ∧
      (generateWeeklyStats [malformedEntry]).moodDistribution = [(MoodType.HAPPY, 1)] ∧
      (generateWeeklyStats [malformedEntry]).moodStreak = 1 := by
  refine ⟨rfl, ?_, rfl, rfl⟩
  norm_num [generateWeeklyStats, malformedEntry, roundTo1, jsRound]

/-- C2 amended: generateWeeklyStats validates nothing and excludes
nothing: every input entry, malformed or not, contributes to all four
aggregates, and the computation is total, never aborting or surfacing an
error; the entry count is the full input length, the counts of the
distribution sum to it, the average is computed over the intensities of
all entries, and the unique day count ranges over the date strings of
all entries. -/
theorem weeklyStats_no_exclusion (moods : List MoodEntry) :
    (generateWeeklyStats moods).totalMoods = moods.length ∧
      (((generateWeeklyStats moods).moodDistribution.map Prod.snd).sum) = moods.length ∧
      (generateWeeklyStats moods).averageIntensity =
        roundTo1 (if 0 < moods.length then
          (((moods.map fun e => e.intensity).sum : ℤ) : ℚ) / (moods.length : ℚ) else 0) ∧
      (generateWeeklyStats moods).moodStreak =
        ((moods.map fun e => e.date).dedup).length := by
  refine ⟨rfl, ?_, ?_, rfl⟩
  · have hdist : (generateWeeklyStats moods).moodDistribution = distAux moods [] := rfl
    rw [hdist, distAux_sum moods []]; simp
  · simp only [generateWeeklyStats, foldl_intensity_sum moods 0, zero_add]


theorem intensity_sum_bounds : ∀ moods : List MoodEntry,
    (∀ e ∈ moods, 1 ≤ e.intensity ∧ e.intensity ≤ 10) →
      (moods.length : ℤ) ≤ ((moods.map fun e => e.intensity).sum) ∧
        ((moods.map fun e => e.intensity).sum) ≤ 10 * moods.length := by
  intro moods
  induction moods with
  | nil => intro _; simp
  | cons e es ih =>
    intro h
    have he := h e (List.mem_cons_self _ _)
    have ht := ih fun x hx => h x (List.mem_cons_of_mem _ hx)
    simp only [List.map_cons, List.sum_cons, List.length_cons]
    push_cast
    omega

/-- C7: when every intensity is an integer between 1 and 10, the stored
average intensity equals the sum of all entries (trivially the filtered
entries, since none is excluded) divided by the entry count and rounded
to one decimal place, lies between 0 and 10, and is 0 exactly when no
entries exist; the empty case is handled without any division by zero. -/
theorem averageIntensity_spec (moods : List MoodEntry)
    (h : ∀ e ∈ moods, 1 ≤ e.intensity ∧ e.intensity ≤ 10) :
    (generateWeeklyStats moods).averageIntensity =
        (if moods.length = 0 then 0
         else roundTo1 ((((moods.map fun e => e.intensity).sum : ℤ) : ℚ) / (moods.length : ℚ))) ∧
      0 ≤ (generateWeeklyStats moods).averageIntensity ∧
      (generateWeeklyStats moods).averageIntensity ≤ 10 ∧
      ((generateWeeklyStats moods).averageIntensity = 0 ↔
        (generateWeeklyStats moods).totalMoods = 0) := by
  have hform : (generateWeeklyStats moods).averageIntensity =
      roundTo1 (if 0 < moods.length then
        (((moods.map fun e => e.intensity).sum : ℤ) : ℚ) / (moods.length : ℚ) else 0) := by
    simp only [generateWeeklyStats, foldl_intensity_sum moods 0, zero_add]
  have htotal : (generateWeeklyStats moods).totalMoods = moods.length := rfl
  by_cases hn : moods.length = 0
  · have hz : (generateWeeklyStats moods).averageIntensity = 0 := by
      rw [hform, hn]
      norm_num [roundTo1, jsRound]
    rw [hz, htotal, hn]
    norm_num
  · have hpos : 0 < moods.length := Nat.pos_of_ne_zero hn
    have hq : (0 : ℚ) < (moods.length : ℚ) := by exact_mod_cast hpos
    set q : ℚ := (((moods.map fun e => e.intensity).sum : ℤ) : ℚ) / (moods.length : ℚ) with hqdef
    have hsum := intensity_sum_bounds moods h
    have h1 : (1 : ℚ) ≤ q := by
      rw [hqdef, le_div_iff₀ hq, one_mul]
      exact_mod_cast hsum.1
    have h10 : q ≤ 10 := by
      rw [hqdef, div_le_iff₀ hq]
      calc (((moods.map fun e => e.intensity).sum : ℤ) : ℚ)
          ≤ ((10 * moods.length : ℤ) : ℚ) := by exact_mod_cast hsum.2
        _ = 10 * (moods.length : ℚ) := by push_cast; ring
    have hflo : (10 : ℤ) ≤ jsRound (q * 10) := by
      rw [jsRound, Int.le_floor]
      push_cast
      nlinarith
    have hfhi : jsRound (q * 10) ≤ 100 := by
      have : jsRound (q * 10) < 101 := by
        rw [jsRound, Int.floor_lt]
        push_cast
        nlinarith
      omega
    have havg : (generateWeeklyStats moods).averageIntensity = (jsRound (q * 10) : ℚ) / 10 := by
      rw [hform, if_pos hpos, roundTo1]
    have hlow : (1 : ℚ) ≤ (generateWeeklyStats moods).averageIntensity := by
      rw [havg, le_div_iff₀ (by norm_num : (0 : ℚ) < 10), one_mul]
      exact_mod_cast hflo
    have hhigh : (generateWeeklyStats moods).averageIntensity ≤ 10 := by
      rw [havg, div_le_iff₀ (by norm_num : (0 : ℚ) < 10)]
      calc ((jsRound (q * 10) : ℤ) : ℚ) ≤ ((100 : ℤ) : ℚ) := by exact_mod_cast hfhi
        _ = 10 * 10 := by norm_num
    refine ⟨by rw [hform, if_neg hn, if_pos hpos, roundTo1], le_trans (by norm_num) hlow, hhigh, ?_⟩
    constructor
    · intro hzero
      exfalso
      rw [hzero] at hlow
      norm_num at hlow
    · intro hzero
      rw [htotal] at hzero
      exact absurd hzero hn

/-- C7 witness: the scenario week of three entries with intensities 8, 6
and 3 satisfies the intensity bounds, and the theorem applies to it. -/
theorem averageIntensity_spec_witness :
    (∀ e ∈ [({ moodType := MoodType.HAPPY, intensity := 8, date := "2025-01-06" } : MoodEntry),
            { moodType := MoodType.HAPPY, intensity := 6, date := "2025-01-07" },
            { moodType := MoodType.SAD, intensity := 3, date := "2025-01-08" }],
        1 ≤ e.intensity ∧ e.intensity ≤ 10) ∧
      (0 ≤ (generateWeeklyStats
        [({ moodType := MoodType.HAPPY, intensity := 8, date := "2025-01-06" } : MoodEntry),
         { moodType := MoodType.HAPPY, intensity := 6, date := "2025-01-07" },
         { moodType := MoodType.SAD, intensity := 3, date := "2025-01-08" }]).averageIntensity) :=
  ⟨by decide,
   (averageIntensity_spec _ (by decide)).2.1⟩


set_option maxRecDepth 8192 in
/-- C9: the recommendation text equals the specification rule table with
the consistency reminder appended exactly when the unique day count is
below 3; it is never the empty string; and it is the fixed generic
encouragement exactly when no mood rule matched and the unique day count
is at least 3. -/
theorem recommendations_spec (stats : WeeklyStats) (dominantMood : MoodType) :
    generateMockRecommendations stats dominantMood = specRecommendationText stats dominantMood ∧
      generateMockRecommendations stats dominantMood ≠ "" ∧
      (generateMockRecommendations stats dominantMood = genericRec ↔
        (specMoodRule stats dominantMood = none ∧ 3 ≤ stats.moodStreak)) := by
  unfold generateMockRecommendations specRecommendationText specMoodRule
  split_ifs <;>
    first
      | (refine ⟨by decide, by decide, ?_⟩
         first
           | exact iff_of_false (by decide)
               (by rintro ⟨hc, -⟩; first | exact Option.noConfusion hc | exact hc.elim)
           | exact iff_of_false (by decide) (by rintro ⟨-, hs⟩; omega)
           | exact iff_of_true (by decide) ⟨by decide, by omega⟩)


theorem reachable_distinctKeys : ∀ s : InsightStore, Reachable s → DistinctKeys s := by
  intro s h
  induction h with
  | empty => exact List.Pairwise.nil
  | create s r hs ih =>
    by_cases hk : hasKey s r = true
    · simpa [applyCreate, createInsight, hk] using ih
    · have hk' : hasKey s r = false := by simpa using hk
      simp only [applyCreate, createInsight, hk', Bool.false_eq_true, if_false]
      rw [DistinctKeys, List.pairwise_append]
      refine ⟨ih, List.pairwise_singleton _ _, ?_⟩
      intro a ha b hb
      rw [List.mem_singleton] at hb
      rintro ⟨h1, h2⟩
      have hmem : hasKey s r = true := by
        rw [hasKey, List.any_eq_true]
        refine ⟨a, ha, ?_⟩
        rw [← hb]
        simp [h1, h2]
      rw [hk'] at hmem
      exact Bool.noConfusion hmem

/-- C3: assuming the spec-modelled insert-if-absent create of the Insight
Store on the identifier (userId, weekStartDate) declared in
src/amplify/data/resource.ts, every reachable store holds at most one row
per identifier; a create for an existing identifier fails with the
duplicate-key error and leaves the store unchanged; and two create
attempts for the same user and week leave exactly one row with that
identifier, the second attempt receiving the duplicate-key failure. -/
theorem insightStore_unique (s : InsightStore) (h : Reachable s) :
    DistinctKeys s ∧
      (∀ r : InsightRecord, hasKey s r = true →
        createInsight s r = .error .duplicateKey ∧ applyCreate s r = s) ∧
      (∀ r₁ r₂ : InsightRecord, r₁.userId = r₂.userId → r₁.weekStartDate = r₂.weekStartDate →
        hasKey s r₁ = false →
        countKey (applyCreate (applyCreate s r₁) r₂) r₁ = 1 ∧
          createInsight (applyCreate s r₁) r₂ = .error .duplicateKey) := by
  refine ⟨reachable_distinctKeys s h, ?_, ?_⟩
  · intro r hr
    constructor <;> simp [createInsight, applyCreate, hr]
  · intro r₁ r₂ h1 h2 hk
    have happly : applyCreate s r₁ = s ++ [r₁] := by
      simp [applyCreate, createInsight, hk]
    have hkey2 : hasKey (s ++ [r₁]) r₂ = true := by
      rw [hasKey, List.any_eq_true]
      exact ⟨r₁, by simp, by simp [h1, h2]⟩
    have hcount0 : countKey s r₁ = 0 := by
      rw [countKey, List.countP_eq_zero]
      intro a ha
      intro hpa
      have : hasKey s r₁ = true := by
        rw [hasKey, List.any_eq_true]
        exact ⟨a, ha, hpa⟩
      rw [hk] at this
      exact Bool.noConfusion this
    have herr : createInsight (s ++ [r₁]) r₂ = .error .duplicateKey := by
      simp [createInsight, hkey2]
    refine ⟨?_, by rw [happly]; exact herr⟩
    rw [happly]
    have : applyCreate (s ++ [r₁]) r₂ = s ++ [r₁] := by
      simp [applyCreate, herr]
    rw [this, countKey, List.countP_append, ← countKey, hcount0]
    simp [List.countP, List.countP.go]

/-- A first insight row for user-1 and the week starting at day 20095. -/
def insightA : InsightRecord :=
  { userId := "user-1", weekStartDate := 20095, weekEndDate := 20101,
    dominantMood := MoodType.HAPPY, weeklyScore := 9 }

/-- A second generation attempt for the same user and week, carrying a
different payload. -/
def insightB : InsightRecord :=
  { userId := "user-1", weekStartDate := 20095, weekEndDate := 20101,
    dominantMood := MoodType.CALM, weeklyScore := 5 }

/-- C3 witness: from the empty store, creating insightA and then
insightB for the same (userId, weekStartDate) leaves exactly one row with
that identifier, the second create failing with the duplicate-key error. -/
theorem insightStore_unique_witness :
    countKey (applyCreate (applyCreate [] insightA) insightB) insightA = 1 ∧
      createInsight (applyCreate [] insightA) insightB =
        Except.error CreateError.duplicateKey :=
  (insightStore_unique [] Reachable.empty).2.2 insightA insightB rfl rfl (by decide)

/-- C8: with zero moods recorded this week the dominant-mood selection
yields none rather than failing (the guard returns before the reduce,
which would otherwise have no result on the empty distribution), and the
pipeline generates no insight text and creates no MoodInsight row: the
store is returned unchanged with no record, as with absent stats. -/
theorem emptyWeek_no_insight (stats : WeeklyStats) (currentUserId : String) (now : ℤ)
    (store : InsightStore) (h : stats.totalMoods = 0) :
    classifyDominantMood stats = none ∧
      generateAIInsight (some stats) currentUserId now store = (store, none) ∧
      generateAIInsight none currentUserId now store = (store, none) := by
  refine ⟨?_, ?_, rfl⟩
  · rw [classifyDominantMood, if_pos h]
  · simp [generateAIInsight, h]

/-- C8 witness: the empty entry list yields stats with zero totalMoods,
and there the selection returns none and the pipeline creates nothing. -/
theorem emptyWeek_no_insight_witness :
    (generateWeeklyStats []).totalMoods = 0 ∧
      classifyDominantMood (generateWeeklyStats []) = none ∧
      generateAIInsight (some (generateWeeklyStats [])) "user-1" 0 [] = ([], none) :=
  ⟨by decide,
   (emptyWeek_no_insight (generateWeeklyStats []) "user-1" 0 [] (by decide)).1,
   (emptyWeek_no_insight (generateWeeklyStats []) "user-1" 0 [] (by decide)).2.1⟩

end MoodSync
